import Mathlib

/-!
# Rolling comment buffer — formal model

Shallow embedding of the `useRollingComments` hook (the bounded chat
buffer driving the chat sidebar) and of its timer-based scheduler, from
the Stream_IT repository.  The buffer keeps the last `MAX_COMMENTS = 20`
messages; synthetic messages are injected by a self-rescheduling
`setTimeout` loop (`injectComment` / `scheduleNext`), and priority ("zap")
messages are appended on demand (`addZapComment`).

Environment inputs that the code reads (`Date.now()`, `Math.random()`)
are modelled as explicit parameters: `now : Nat` is the millisecond
clock value, and each `Math.random()` draw is a rational in `[0, 1)`.
The `setTimeout` / `clearTimeout` runtime is modelled by a pending-timer
slot: a timer callback runs only if its id is still pending, and
`clearTimeout` removes it.
-/

namespace StreamIT

/-- The fixed pool of synthetic message bodies (`COMMENT_TEMPLATES`). -/
def COMMENT_TEMPLATES : List String := [
  "Bullish on BTC! 🚀",
  "LFG ⚡",
  "Smooth stream quality 👌",
  "Stack sats, not regrets",
  "GM ☀️",
  "This is the way",
  "21 million club ₿",
  "HODL strong 💎🙌",
  "Lightning is the future",
  "Zap it! ⚡⚡⚡",
  "When Lambo? 🏎️",
  "Sound money only",
  "Fiat is a scam",
  "Not your keys, not your coins 🔑",
  "Second layer scaling FTW",
  "Thanks for the alpha 🧠",
  "Sat stacking intensifies",
  "Orange coin good 🍊",
  "Layer 2 go brrr",
  "Proof of work >>> Proof of stake"
]

/-- The fixed pool of synthetic author names (`AUTHORS`). -/
def AUTHORS : List String := [
  "SatoshisFan21",
  "LightningNode42",
  "BitcoinMaxi",
  "StackingSats",
  "HodlGang",
  "BTCWhale",
  "ZapMaster",
  "CryptoNinja",
  "MoonBoi",
  "DiamondHands"
]

/-- `MAX_COMMENTS`: the buffer keeps only the last 20 comments. -/
def MAX_COMMENTS : Nat := 20

/-- The `Comment` record from `types/index.ts`: `id`, `author`, `text`,
`timestamp` (a `Date.now()` millisecond value) and the `isZap` flag. -/
structure Comment where
  id : String
  author : String
  text : String
  timestamp : Nat
  isZap : Bool
  deriving DecidableEq, Repr

/-- JavaScript array read `a[i]` on a string array: out of bounds it
evaluates to `undefined` (modelled by the sentinel string, which occurs
in neither pool). -/
def jsIndex (l : List String) (i : Nat) : String :=
  (l.get? i).getD "undefined"

/-- `Array.prototype.slice(-n)`: the last `n` elements of a list (all of
them when it is shorter than `n`). -/
def sliceLast (n : Nat) (l : List α) : List α :=
  l.drop (l.length - n)

/-- The state updater used by both appends:
`prev => [...prev, c].slice(-MAX_COMMENTS)`. -/
def pushBounded (prev : List Comment) (c : Comment) : List Comment :=
  sliceLast MAX_COMMENTS (prev ++ [c])

/-- `Math.floor(Math.random() * AUTHORS.length)`, with the
`Math.random()` draw `r` as a rational in `[0, 1)`. -/
def authorIndexOf (r : ℚ) : Nat :=
  (Rat.floor (r * (AUTHORS.length : ℚ))).toNat

/-- The comment built by `injectComment`: `cursor` is the hook's
`currentIndex`, `r` the `Math.random()` draw picking the author, `rid`
the `Math.random()` draw interpolated into the id, `now` the
`Date.now()` value (used both in the id and as the timestamp). -/
def mkSyntheticComment (cursor : Nat) (r rid : ℚ) (now : Nat) : Comment where
  id := "comment-" ++ toString now ++ "-" ++ toString rid
  author := jsIndex AUTHORS (authorIndexOf r)
  text := jsIndex COMMENT_TEMPLATES (cursor % COMMENT_TEMPLATES.length)
  timestamp := now
  isZap := false

/-- JavaScript `customMessage || deflt`: the empty string is falsy, so it
falls through to the default. -/
def jsOrDefault (customMessage : Option String) (deflt : String) : String :=
  match customMessage with
  | none => deflt
  | some s => if s = "" then deflt else s

/-- The fixed default acknowledgement text of `addZapComment`. -/
def ZAP_DEFAULT_TEXT : String := "⚡ New tip received! ⚡"

/-- The comment built by `addZapComment`. -/
def mkZapComment (customMessage : Option String) (now : Nat) : Comment where
  id := "zap-" ++ toString now
  author := "System"
  text := jsOrDefault customMessage ZAP_DEFAULT_TEXT
  timestamp := now
  isZap := true

/-- The hook's component state: the `comments` list and the
`currentIndex` cursor. -/
structure HookState where
  comments : List Comment
  currentIndex : Nat
  deriving DecidableEq, Repr

/-- `useState` initial values: empty list, cursor 0. -/
def initialState : HookState := ⟨[], 0⟩

/-- `injectComment`: builds the synthetic comment from the current
cursor, pushes it (bounded), increments the cursor.  The second
component is the function's JavaScript return value: the body ends
without a `return` statement, so the call evaluates to `undefined`
(`none`). -/
def injectComment (r rid : ℚ) (now : Nat) (s : HookState) :
    HookState × Option Comment :=
  let newComment := mkSyntheticComment s.currentIndex r rid now
  (⟨pushBounded s.comments newComment, s.currentIndex + 1⟩, none)

/-- `addZapComment(customMessage?)`: builds the zap comment and pushes it
(bounded); the cursor is untouched.  As with `injectComment`, the body
has no `return`, so the call evaluates to `undefined` (`none`). -/
def addZapComment (customMessage : Option String) (now : Nat) (s : HookState) :
    HookState × Option Comment :=
  let zapComment := mkZapComment customMessage now
  (⟨pushBounded s.comments zapComment, s.currentIndex⟩, none)

/-- One append event together with the environment values it reads. -/
inductive Ev where
  | syn (r rid : ℚ) (now : Nat)
  | zap (customMessage : Option String) (now : Nat)
  deriving DecidableEq

/-- State transition of one append event. -/
def step (s : HookState) (e : Ev) : HookState :=
  match e with
  | .syn r rid now => (injectComment r rid now s).1
  | .zap c now => (addZapComment c now s).1

/-- Run a sequence of append events. -/
def run (s : HookState) : List Ev → HookState
  | [] => s
  | e :: evs => run (step s e) evs

/-- The message an event creates, given the cursor at that point. -/
def createdComment (cursor : Nat) : Ev → Comment
  | .syn r rid now => mkSyntheticComment cursor r rid now
  | .zap c now => mkZapComment c now

/-- Cursor after an event (only synthetic appends advance it). -/
def nextCursor (cursor : Nat) : Ev → Nat
  | .syn _ _ _ => cursor + 1
  | .zap _ _ => cursor

/-- The full sequence of messages a run appends, in order. -/
def msgsOf (cursor : Nat) : List Ev → List Comment
  | [] => []
  | e :: evs => createdComment cursor e :: msgsOf (nextCursor cursor e) evs

/-- The clock value an event observes. -/
def evNow : Ev → Nat
  | .syn _ _ now => now
  | .zap _ now => now

/-- Scheduler state of the injection effect: the hook state, the pending
`timeoutId` (at most one single-shot timer is armed at a time), and a
supply of fresh timer ids. -/
structure SchedState where
  hook : HookState
  pending : Option Nat
  nextTimerId : Nat
  deriving DecidableEq, Repr

/-- `scheduleNext()`: `timeoutId = setTimeout(...)` arms one fresh
single-shot timer. -/
def scheduleNext (s : SchedState) : SchedState :=
  { s with pending := some s.nextTimerId, nextTimerId := s.nextTimerId + 1 }

/-- The effect cleanup `() => clearTimeout(timeoutId)`: removes the
pending timer from the runtime's table, so it can never fire. -/
def cleanup (s : SchedState) : SchedState :=
  { s with pending := none }

/-- The runtime fires timer `tid`: per `setTimeout` semantics the
callback runs only if `tid` is still pending; it then performs
`injectComment(); scheduleNext();`. -/
def fireTimer (tid : Nat) (r rid : ℚ) (now : Nat) (s : SchedState) : SchedState :=
  if s.pending = some tid then
    scheduleNext { s with hook := (injectComment r rid now s.hook).1, pending := none }
  else s

example : (run initialState [Ev.zap (some "hi") 3]).comments.length = 1 := by decide

example : (mkZapComment none 3).text = ZAP_DEFAULT_TEXT := rfl

example : (mkZapComment (some "x") 3).text = "x" := by decide

example : sliceLast 2 [1, 2, 3, 4] = [3, 4] := by decide

theorem length_sliceLast (n : Nat) (l : List α) :
    (sliceLast n l).length = min l.length n := by
  simp only [sliceLast, List.length_drop]
  omega

theorem sliceLast_append_left (n : Nat) (l l₂ : List α) :
    sliceLast n (sliceLast n l ++ l₂) = sliceLast n (l ++ l₂) := by
  unfold sliceLast
  rw [← List.drop_append_of_le_length (Nat.sub_le l.length n), List.drop_drop]
  congr 1
  simp only [List.length_append, List.length_drop]
  omega

theorem sliceLast_nil (n : Nat) : sliceLast n ([] : List α) = [] := by
  simp [sliceLast]

/-- Characterization of a run of appends that starts from a state whose
comment list is already truncated: it ends in the last `MAX_COMMENTS` of
the old contents followed by all appended messages. -/
theorem run_comments (evs : List Ev) : ∀ (l : List Comment) (k : Nat),
    (run ⟨sliceLast MAX_COMMENTS l, k⟩ evs).comments
      = sliceLast MAX_COMMENTS (l ++ msgsOf k evs) := by
  induction evs with
  | nil => intro l k; simp [run, msgsOf]
  | cons e evs ih =>
    intro l k
    cases e with
    | syn r rid now =>
      rw [show run ⟨sliceLast MAX_COMMENTS l, k⟩ (Ev.syn r rid now :: evs)
            = run ⟨sliceLast MAX_COMMENTS (l ++ [mkSyntheticComment k r rid now]),
                k + 1⟩ evs
          from by simp [run, step, injectComment, pushBounded, sliceLast_append_left]]
      rw [ih (l ++ [mkSyntheticComment k r rid now]) (k + 1)]
      simp [msgsOf, createdComment, nextCursor]
    | zap c now =>
      rw [show run ⟨sliceLast MAX_COMMENTS l, k⟩ (Ev.zap c now :: evs)
            = run ⟨sliceLast MAX_COMMENTS (l ++ [mkZapComment c now]), k⟩ evs
          from by simp [run, step, addZapComment, pushBounded, sliceLast_append_left]]
      rw [ih (l ++ [mkZapComment c now]) k]
      simp [msgsOf, createdComment, nextCursor]

/-- A run from the initial empty state: the buffer is the last
`MAX_COMMENTS` of all appended messages, in order. -/
theorem run_initial_comments (evs : List Ev) :
    (run initialState evs).comments = sliceLast MAX_COMMENTS (msgsOf 0 evs) := by
  have h := run_comments evs [] 0
  simpa [initialState, sliceLast_nil] using h

theorem length_msgsOf (evs : List Ev) : ∀ k, (msgsOf k evs).length = evs.length := by
  induction evs with
  | nil => intro k; rfl
  | cons e evs ih => intro k; simp [msgsOf, ih]

/-- C1: for every sequence of `N ≥ 0` appends (any mix of synthetic
`injectComment` and priority `addZapComment`) applied to the initially
empty buffer, the length of the comments list equals `min(N, 20)`. -/
theorem snapshot_length_eq_min (evs : List Ev) :
    (run initialState evs).comments.length = min evs.length MAX_COMMENTS := by
  rw [run_initial_comments, length_sliceLast, length_msgsOf]

/-- C2: eviction is strictly FIFO and priority-blind: whenever the number
of appends exceeds 20, the buffer holds exactly the last 20 appended
messages (synthetic or zap alike), in insertion order. -/
theorem eviction_fifo (evs : List Ev) (h : MAX_COMMENTS < evs.length) :
    (run initialState evs).comments = sliceLast MAX_COMMENTS (msgsOf 0 evs)
      ∧ (sliceLast MAX_COMMENTS (msgsOf 0 evs)).length = MAX_COMMENTS := by
  refine ⟨run_initial_comments evs, ?_⟩
  rw [length_sliceLast, length_msgsOf]
  omega

/-- A concrete mixed overflow workload: 21 appends. -/
def evsMix : List Ev :=
  List.replicate 11 (Ev.syn 0 0 0) ++ List.replicate 10 (Ev.zap none 0)

/-- Witness for C2 at a concrete 21-append workload. -/
theorem eviction_fifo_witness :
    MAX_COMMENTS < evsMix.length
      ∧ ((run initialState evsMix).comments = sliceLast MAX_COMMENTS (msgsOf 0 evsMix)
          ∧ (sliceLast MAX_COMMENTS (msgsOf 0 evsMix)).length = MAX_COMMENTS) :=
  ⟨by decide, eviction_fifo evsMix (by decide)⟩

/-- C3 counterexample: calling `addZapComment` with the provided (but
empty) custom text `""` does not produce a message whose text is `""`;
the JavaScript `||` treats the empty string as falsy, so the fixed
default acknowledgement is used instead. -/
theorem addZap_empty_custom_text_ignored :
    (mkZapComment (some "") 100).text = ZAP_DEFAULT_TEXT
      ∧ (mkZapComment (some "") 100).text ≠ "" := by
  constructor
  · rfl
  · decide

/-- C3 (amended): `addZapComment` with no argument uses the fixed default
acknowledgement text, and with any provided non-empty custom text it uses
exactly that text (the empty string falls back to the default). -/
theorem addZap_text_spec (t : String) (now now₂ : Nat) (h : t ≠ "") :
    (mkZapComment (some t) now).text = t
      ∧ (mkZapComment none now₂).text = ZAP_DEFAULT_TEXT := by
  refine ⟨?_, rfl⟩
  simp [mkZapComment, jsOrDefault, h]

/-- Witness for the amended C3 at the concrete custom text. -/
theorem addZap_text_spec_witness :
    "Tip received!" ≠ ""
      ∧ ((mkZapComment (some "Tip received!") 7).text = "Tip received!"
          ∧ (mkZapComment none 8).text = ZAP_DEFAULT_TEXT) :=
  ⟨by decide, addZap_text_spec "Tip received!" 7 8 (by decide)⟩

/-- C4: id reuse.  Two `addZapComment` calls that observe the same
`Date.now()` millisecond (here 100) create two distinct messages that
carry the SAME id `"zap-100"`, because the zap id is built from the
timestamp alone.  This contradicts the hook's own documentation ("Each
comment gets a unique ID ... for React key optimization"). -/
theorem zap_id_collision :
    ((run initialState
        [Ev.zap (some "first zap") 100, Ev.zap (some "second zap") 100]).comments.map
      Comment.id) = ["zap-100", "zap-100"]
      ∧ ((run initialState
            [Ev.zap (some "first zap") 100, Ev.zap (some "second zap") 100]).comments.map
          Comment.text) = ["first zap", "second zap"] := by
  decide

/-- C5: once the effect cleanup (`clearTimeout`) has run, firing any
timer — in particular the one that was pending when cleanup ran — is a
no-op: no synthetic append happens, the buffer and the whole scheduler
state are unchanged. -/
theorem cancelled_timer_no_append (s : SchedState) (tid : Nat) (r rid : ℚ) (now : Nat) :
    fireTimer tid r rid now (cleanup s) = cleanup s := by
  simp [fireTimer, cleanup]

/-- C6: template selection wraps modulo the template count and depends
only on the cursor: `injectComment` at cursor `k + templateCount` picks
the same template text as at cursor `k`, whatever the author randomness,
id randomness or clock values are. -/
theorem template_selection_wraps (k : Nat) (r rid r₂ rid₂ : ℚ) (now now₂ : Nat) :
    (mkSyntheticComment (k + COMMENT_TEMPLATES.length) r rid now).text
      = (mkSyntheticComment k r₂ rid₂ now₂).text := by
  simp [mkSyntheticComment, Nat.add_mod_right]

theorem timestamps_msgsOf (evs : List Ev) : ∀ k,
    (msgsOf k evs).map Comment.timestamp = evs.map evNow := by
  induction evs with
  | nil => intro k; rfl
  | cons e evs ih =>
    intro k
    cases e <;>
      simp [msgsOf, createdComment, nextCursor, evNow, mkSyntheticComment,
        mkZapComment, ih]

/-- C7: whenever the clock values observed by the appends are
non-decreasing along the sequence, the buffer after the run is sorted
non-decreasing by timestamp (oldest first). -/
theorem snapshot_sorted_by_timestamp (evs : List Ev)
    (h : (evs.map evNow).Sorted (· ≤ ·)) :
    ((run initialState evs).comments.map Comment.timestamp).Sorted (· ≤ ·) := by
  rw [run_initial_comments]
  unfold sliceLast
  rw [List.map_drop, timestamps_msgsOf]
  exact List.Pairwise.sublist (List.drop_sublist _ _) h

/-- A concrete interleaved workload with non-decreasing clock values. -/
def evsClockDemo : List Ev :=
  [Ev.syn 0 0 1, Ev.zap (some "Tip received!") 2, Ev.syn 1 0 2]

/-- Witness for C7 at a concrete workload. -/
theorem snapshot_sorted_by_timestamp_witness :
    (evsClockDemo.map evNow).Sorted (· ≤ ·)
      ∧ ((run initialState evsClockDemo).comments.map Comment.timestamp).Sorted
          (· ≤ ·) :=
  ⟨by decide, snapshot_sorted_by_timestamp evsClockDemo (by decide)⟩

/-- C8 counterexample: the append operations always succeed and do append
the created message (it becomes the buffer's last element), but their
JavaScript return value is `undefined` — not the created message — since
neither function body has a `return` statement. -/
theorem append_result_not_message :
    (addZapComment none 5 initialState).1.comments = [mkZapComment none 5]
      ∧ (addZapComment none 5 initialState).2 ≠ some (mkZapComment none 5)
      ∧ (injectComment 0 0 5 initialState).2 = none := by
  refine ⟨by decide, ?_, rfl⟩
  simp [addZapComment]

theorem getLast?_pushBounded (l : List Comment) (c : Comment) :
    (pushBounded l c).getLast? = some c := by
  have hM : MAX_COMMENTS = 20 := rfl
  have hlen : (l ++ [c]).length - MAX_COMMENTS = l.length + 1 - MAX_COMMENTS := by
    simp
  unfold pushBounded sliceLast
  rw [hlen, List.drop_append_of_le_length (by omega)]
  exact List.getLast?_concat _

theorem pushBounded_eq_drop_append (l : List Comment) (c : Comment) :
    pushBounded l c = l.drop (l.length + 1 - MAX_COMMENTS) ++ [c] := by
  have hM : MAX_COMMENTS = 20 := rfl
  have hlen : (l ++ [c]).length - MAX_COMMENTS = l.length + 1 - MAX_COMMENTS := by
    simp
  unfold pushBounded sliceLast
  rw [hlen, List.drop_append_of_le_length (by omega)]

/-- C8 (amended): both append operations are total — for every buffer
state and every argument they succeed, and the created message is
appended as the new last element of the buffer — but each operation's
return value is `undefined` (`none`), not the created message. -/
theorem appends_total (s : HookState) (r rid : ℚ) (now : Nat) (c : Option String) :
    (injectComment r rid now s).1.comments
        = pushBounded s.comments (mkSyntheticComment s.currentIndex r rid now)
      ∧ (injectComment r rid now s).1.comments.getLast?
          = some (mkSyntheticComment s.currentIndex r rid now)
      ∧ (injectComment r rid now s).2 = none
      ∧ (addZapComment c now s).1.comments
          = pushBounded s.comments (mkZapComment c now)
      ∧ (addZapComment c now s).1.comments.getLast? = some (mkZapComment c now)
      ∧ (addZapComment c now s).2 = none :=
  ⟨rfl, getLast?_pushBounded _ _, rfl, rfl, getLast?_pushBounded _ _, rfl⟩

theorem jsIndex_mem (l : List String) (i : Nat) (h : i < l.length) :
    jsIndex l i ∈ l := by
  unfold jsIndex
  rw [List.get?_eq_get h]
  simp only [Option.getD_some]
  exact List.get_mem l i h

theorem authorIndexOf_lt (r : ℚ) (h0 : 0 ≤ r) (h1 : r < 1) :
    authorIndexOf r < AUTHORS.length := by
  have hA : AUTHORS.length = 10 := rfl
  have hcast : ((AUTHORS.length : ℕ) : ℚ) = 10 := by rw [hA]; norm_num
  have hmul : r * (AUTHORS.length : ℚ) < 10 := by rw [hcast]; nlinarith
  have hfloor : Rat.floor (r * (AUTHORS.length : ℚ)) < 10 := by
    by_contra hge
    push_neg at hge
    have hle : ((10 : ℤ) : ℚ) ≤ r * (AUTHORS.length : ℚ) := Rat.le_floor.mp hge
    push_cast at hle
    linarith
  unfold authorIndexOf
  omega

/-- C9: every synthetic message is well-formed from the fixed pools: for
a `Math.random()` author draw in `[0, 1)` the author index and the
modulo template index are in bounds, the author is an element of the
10-entry `AUTHORS` pool, the text is an element of the 20-entry
`COMMENT_TEMPLATES` pool (never the out-of-bounds `undefined`), and the
`isZap` flag is `false`. -/
theorem synthetic_message_wellformed (cursor : Nat) (r rid : ℚ) (now : Nat)
    (h0 : 0 ≤ r) (h1 : r < 1) :
    authorIndexOf r < AUTHORS.length
      ∧ cursor % COMMENT_TEMPLATES.length < COMMENT_TEMPLATES.length
      ∧ (mkSyntheticComment cursor r rid now).author ∈ AUTHORS
      ∧ (mkSyntheticComment cursor r rid now).text ∈ COMMENT_TEMPLATES
      ∧ (mkSyntheticComment cursor r rid now).isZap = false := by
  have ha := authorIndexOf_lt r h0 h1
  have ht : cursor % COMMENT_TEMPLATES.length < COMMENT_TEMPLATES.length :=
    Nat.mod_lt _ (by decide)
  exact ⟨ha, ht, jsIndex_mem _ _ ha, jsIndex_mem _ _ ht, rfl⟩

/-- Witness for C9 at the concrete draw `1/2`. -/
theorem synthetic_message_wellformed_witness :
    (0 : ℚ) ≤ 1 / 2 ∧ (1 / 2 : ℚ) < 1
      ∧ (authorIndexOf (1 / 2) < AUTHORS.length
          ∧ 3 % COMMENT_TEMPLATES.length < COMMENT_TEMPLATES.length
          ∧ (mkSyntheticComment 3 (1 / 2) 0 5).author ∈ AUTHORS
          ∧ (mkSyntheticComment 3 (1 / 2) 0 5).text ∈ COMMENT_TEMPLATES
          ∧ (mkSyntheticComment 3 (1 / 2) 0 5).isZap = false) :=
  ⟨by norm_num, by norm_num,
    synthetic_message_wellformed 3 (1 / 2) 0 5 (by norm_num) (by norm_num)⟩

/-- C10: an append never modifies surviving messages: the new buffer is a
suffix of the old buffer (elements identical, relative order kept)
followed by the single created message. -/
theorem append_frame (s : HookState) (e : Ev) :
    ∃ t : List Comment,
      (step s e).comments = t ++ [createdComment s.currentIndex e]
        ∧ t <:+ s.comments := by
  cases e with
  | syn r rid now =>
    exact ⟨s.comments.drop (s.comments.length + 1 - MAX_COMMENTS),
      pushBounded_eq_drop_append _ _, List.drop_suffix _ _⟩
  | zap c now =>
    exact ⟨s.comments.drop (s.comments.length + 1 - MAX_COMMENTS),
      pushBounded_eq_drop_append _ _, List.drop_suffix _ _⟩

end StreamIT
